import Mathlib

/-!
Verification of the github-metadata-lookup tool (src/enrich-github-url.py).

The Python source is shallowly embedded: the three network endpoints queried
for one repository are modelled by a `RepoProvider` value, a Python exception
escaping to the catch-all handler is modelled by `Option` (`none` = an
exception was raised and caught), printed diagnostics are collected in an
explicit `List String`, and the CSV writer is modelled together with a
standard CSV reader for the round-trip property.
-/

namespace EnrichGithubUrl

/-- Absence marker for numeric JSON fields, as produced by
`repo_data.get(key, 'N/A')` (lines 45-47 of the source). -/
inductive IntOrNA where
  | int (n : Int)
  | na
  deriving DecidableEq, Repr

/-- JSON body returned by the commit-list endpoint: either an ordered list of
commits (newest first, represented by their committer dates, which is the only
path the source reads), or a non-success error object carrying a message. -/
inductive CommitsJson where
  | commitList (dates : List String)
  | errorObj (message : String)
  deriving DecidableEq, Repr

/-- The responses the remote API returns for one repository: the metadata
endpoint (status, optional error message, optional counts), the commit-list
endpoint, the README-reference endpoint (status plus the `download_url` field,
which may be missing from the JSON), and the raw-content fetch (status and
body text).  `rawStatus` is part of the transport but is never examined by the
source code. -/
structure RepoProvider where
  repoStatus : Nat
  message : Option String
  stargazers_count : Option Int
  watchers_count : Option Int
  forks_count : Option Int
  commitsJson : CommitsJson
  readmeStatus : Nat
  download_url : Option String
  rawStatus : Nat
  rawText : String
  deriving DecidableEq, Repr

/-- A remote API: the responses it gives per (owner, repo). -/
def Api : Type := String → String → RepoProvider

/-- The record assembled by `get_repo_info` (lines 39-48 of the source). -/
structure RepoRecord where
  url : String
  owner : String
  repo : String
  first_sentence_of_readme : String
  last_commit_date : String
  stars : IntOrNA
  watchers : IntOrNA
  forks : IntOrNA
  deriving DecidableEq, Repr

/-- Python `str.strip()` (over ASCII whitespace): drop leading and trailing
whitespace characters. -/
def pyStrip (s : String) : String :=
  String.mk (((s.data.dropWhile Char.isWhitespace).reverse.dropWhile Char.isWhitespace).reverse)

/-- Python `str.split` with a one-character separator: empty segments are
kept, and splitting the empty string yields one empty segment. -/
def pySplit (sep : Char) : List Char → List (List Char)
  | [] => [[]]
  | c :: rest =>
      let r := pySplit sep rest
      if c = sep then [] :: r
      else (c :: r.headD []) :: r.tail

theorem pySplit_ne_nil (sep : Char) (l : List Char) : pySplit sep l ≠ [] := by
  cases l with
  | nil => simp [pySplit]
  | cons c rest =>
      simp only [pySplit]
      split <;> simp

theorem pySplit_length (sep : Char) (l : List Char) :
    (pySplit sep l).length = l.count sep + 1 := by
  induction l with
  | nil => simp [pySplit]
  | cons c rest ih =>
      by_cases h : c = sep
      · simp [pySplit, h, List.count_cons, ih]
      · cases hr : pySplit sep rest with
        | nil => exact absurd hr (pySplit_ne_nil sep rest)
        | cons a as =>
            rw [hr] at ih
            simp [pySplit, h, hr, List.count_cons, Ne.symm h] at ih ⊢
            omega

theorem pySplit_headD (sep : Char) (l : List Char) :
    (pySplit sep l).headD [] = l.takeWhile (fun c => c != sep) := by
  induction l with
  | nil => simp [pySplit]
  | cons c rest ih =>
      by_cases h : c = sep
      · simp [pySplit, h, List.takeWhile_cons]
      · cases hr : pySplit sep rest with
        | nil => exact absurd hr (pySplit_ne_nil sep rest)
        | cons a as =>
            rw [hr] at ih
            simp only [List.headD_cons] at ih
            simp [pySplit, h, hr, List.takeWhile_cons, ih]

/-- Models line 25 of the source:
`commits_data[0]['commit']['committer']['date'] if commits_data else "No commits found"`.
An empty list is falsy and yields the sentinel; indexing a non-success error
object with `[0]` raises, modelled as `none`. -/
def lastCommitDateOf : CommitsJson → Option String
  | .commitList dates => some (dates.headD "No commits found")
  | .errorObj _ => none

/-- Models line 34 of the source:
`readme_content.split('.')[0] + '.' if readme_content else "README not available"`. -/
def firstSentenceOf (content : String) : String :=
  if content = "" then "README not available"
  else String.mk ((pySplit '.' content.data).headD []) ++ "."

/-- Models lines 28-36 of the source: if the README-reference request is
non-success the sentinel is substituted; on success the `download_url` key is
read (raising, i.e. `none`, when missing) and the raw content body is fetched
and used without any status check. -/
def readmeFirstSentence (p : RepoProvider) : Option String :=
  if p.readmeStatus = 200 then
    match p.download_url with
    | none => none
    | some _ => some (firstSentenceOf p.rawText)
  else some "README not available"

/-- Python `print` rendering of `repo_data.get('message')`. -/
def pyStr : Option String → String
  | some s => s
  | none => "None"

def getOrNA : Option Int → IntOrNA
  | some n => .int n
  | none => .na

/-- `get_repo_info` (lines 10-52 of the source), with the network responses
for the queried repository given by `p`: returns the assembled record, or
`none` when the metadata request is non-success or an exception reached the
catch-all handler, together with the printed diagnostics. -/
def get_repo_info (p : RepoProvider) (owner repo : String) :
    Option RepoRecord × List String :=
  if p.repoStatus ≠ 200 then
    (none, ["Error fetching repository " ++ owner ++ "/" ++ repo ++ ": " ++ pyStr p.message])
  else
    match lastCommitDateOf p.commitsJson, readmeFirstSentence p with
    | some lastDate, some firstSentence =>
        (some { url := "https://github.com/" ++ owner ++ "/" ++ repo,
                owner := owner,
                repo := repo,
                first_sentence_of_readme := firstSentence,
                last_commit_date := lastDate,
                stars := getOrNA p.stargazers_count,
                watchers := getOrNA p.watchers_count,
                forks := getOrNA p.forks_count }, [])
    | _, _ =>
        (none, ["Error fetching information for " ++ owner ++ "/" ++ repo ++ ": exception"])

/-- `process_single_url` (lines 55-65 of the source): trim, split on "/",
raise (and report) when fewer than two segments exist, else take the last two
segments `parts[-2]`, `parts[-1]` as owner and repo and fetch. -/
def process_single_url (api : Api) (url : String) :
    Option RepoRecord × List String :=
  let u := pyStrip url
  let parts := pySplit '/' u.data
  if parts.length < 2 then
    (none, ["Invalid GitHub URL '" ++ u ++ "': URL does not have enough parts."])
  else
    let owner := String.mk (parts.getD (parts.length - 2) [])
    let repo := String.mk (parts.getD (parts.length - 1) [])
    get_repo_info (api owner repo) owner repo

/-- `process_multiple_urls` (lines 68-82 of the source), over the list of
lines of an existing input file: blank lines are skipped silently; each other
line is processed, successful records are appended in order, and `None`
results are dropped. -/
def process_multiple_urls (api : Api) (lines : List String) :
    List RepoRecord × List String :=
  match lines with
  | [] => ([], [])
  | l :: ls =>
      if pyStrip l = "" then process_multiple_urls api ls
      else
        let res := process_single_url api (pyStrip l)
        let rest := process_multiple_urls api ls
        match res.1 with
        | some r => (r :: rest.1, res.2 ++ rest.2)
        | none => (rest.1, res.2 ++ rest.2)

/-! ## Output Sink: the CSV writer of lines 85-96 and a standard CSV reader.

The Python `csv` module's default dialect is modelled: delimiter `,`,
quote character `"`, minimal quoting (a field is quoted exactly when it
contains the delimiter, the quote character, or a line-terminator character,
with embedded quote characters doubled), row terminator CRLF.  The source
contains no reader; `csvRows` below models the standard reader for this
format, used by the spec's round-trip property. -/

/-- A field must be quoted when it contains the delimiter, the quote
character, or a character of the line terminator. -/
def needsQuote (s : List Char) : Bool :=
  s.any fun c => c = ',' || c = '"' || c = '\r' || c = '\n'

/-- Double every embedded quote character. -/
def escapeQuotes : List Char → List Char
  | [] => []
  | c :: rest => if c = '"' then '"' :: '"' :: escapeQuotes rest else c :: escapeQuotes rest

/-- Render one field with minimal quoting. -/
def quoteField (s : List Char) : List Char :=
  if needsQuote s then '"' :: (escapeQuotes s ++ ['"']) else s

/-- Join the rendered fields of one row with the delimiter. -/
def joinFields : List (List Char) → List Char
  | [] => []
  | [f] => quoteField f
  | f :: fs => quoteField f ++ ',' :: joinFields fs

/-- One CSV row, terminated by CRLF. -/
def writeRowChars (fs : List (List Char)) : List Char :=
  joinFields fs ++ ['\r', '\n']

/-- The full CSV text for a list of rows. -/
def writeCsvChars (rows : List (List (List Char))) : List Char :=
  (rows.map writeRowChars).flatten

/-- Reader modes: at the start of a field (`row` holds the completed fields
of the current row, reversed), inside an unquoted field (`cur` holds its
characters reversed), inside a quoted field, just after the closing quote of
a finished field `f`, or just after a CR whose row has been emitted. -/
inductive CsvMode where
  | fieldStart (row : List (List Char))
  | unquoted (cur : List Char) (row : List (List Char))
  | quoted (cur : List Char) (row : List (List Char))
  | afterQuote (f : List Char) (row : List (List Char))
  | afterCR

/-- The row assembled when the field `cur` (held reversed) ends row `row`. -/
def rowDone (cur : List Char) (row : List (List Char)) : List (List Char) :=
  (cur.reverse :: row).reverse

/-- One-pass reader for the writer's CSV dialect: a quote character opens a
quoted field only at the start of a field, a doubled quote character inside a
quoted field is an embedded quote, the delimiter ends a field, and CRLF (or a
bare LF or CR) ends a row.  The end of the input at the start of a row emits
nothing. -/
def csvGo (mode : CsvMode) (acc : List (List (List Char))) :
    List Char → List (List (List Char))
  | [] =>
      match mode with
      | .fieldStart [] => acc.reverse
      | .fieldStart (f :: row) => (rowDone [] (f :: row) :: acc).reverse
      | .unquoted cur row => (rowDone cur row :: acc).reverse
      | .quoted cur row => (rowDone cur row :: acc).reverse
      | .afterQuote f row => (rowDone f.reverse row :: acc).reverse
      | .afterCR => acc.reverse
  | c :: rest =>
      match mode with
      | .fieldStart row =>
          if c = '"' then csvGo (.quoted [] row) acc rest
          else if c = ',' then csvGo (.fieldStart ([] :: row)) acc rest
          else if c = '\r' then csvGo .afterCR (rowDone [] row :: acc) rest
          else if c = '\n' then csvGo (.fieldStart []) (rowDone [] row :: acc) rest
          else csvGo (.unquoted [c] row) acc rest
      | .unquoted cur row =>
          if c = ',' then csvGo (.fieldStart (cur.reverse :: row)) acc rest
          else if c = '\r' then csvGo .afterCR (rowDone cur row :: acc) rest
          else if c = '\n' then csvGo (.fieldStart []) (rowDone cur row :: acc) rest
          else csvGo (.unquoted (c :: cur) row) acc rest
      | .quoted cur row =>
          if c = '"' then csvGo (.afterQuote cur.reverse row) acc rest
          else csvGo (.quoted (c :: cur) row) acc rest
      | .afterQuote f row =>
          if c = '"' then csvGo (.quoted ('"' :: f.reverse) row) acc rest
          else if c = ',' then csvGo (.fieldStart (f :: row)) acc rest
          else if c = '\r' then csvGo .afterCR (rowDone f.reverse row :: acc) rest
          else if c = '\n' then csvGo (.fieldStart []) (rowDone f.reverse row :: acc) rest
          else csvGo (.afterQuote f row) acc rest
      | .afterCR =>
          if c = '\n' then csvGo (.fieldStart []) acc rest
          else if c = '"' then csvGo (.quoted [] []) acc rest
          else if c = ',' then csvGo (.fieldStart [[]]) acc rest
          else if c = '\r' then csvGo .afterCR (rowDone [] [] :: acc) rest
          else csvGo (.unquoted [c] []) acc rest

/-- Parse a CSV text into its rows of fields. -/
def parseCsvString (s : String) : List (List String) :=
  (csvGo (.fieldStart []) [] s.data).map fun row => row.map String.mk

/-- Python `str()` rendering of an integer-or-absent field as written by
`csv.DictWriter`. -/
def intOrNaStr : IntOrNA → String
  | .int n => toString n
  | .na => "N/A"

/-- The fixed header of line 91 of the source. -/
def fieldnames : List String :=
  ["url", "owner", "repo", "first_sentence_of_readme", "last_commit_date",
   "stars", "watchers", "forks"]

/-- The CSV row written for one record, in header order. -/
def recordToRow (r : RepoRecord) : List String :=
  [r.url, r.owner, r.repo, r.first_sentence_of_readme, r.last_commit_date,
   intOrNaStr r.stars, intOrNaStr r.watchers, intOrNaStr r.forks]

/-- `write_to_csv` (lines 85-96 of the source): with no records, report and
write nothing; otherwise produce the CSV text (header row then one row per
record) and report success.  The first component is the content written to
the output file, `none` when no file is produced. -/
def write_to_csv (output_file : String) (data : List RepoRecord) :
    Option String × List String :=
  if data = [] then (none, ["No data to write."])
  else
    (some (String.mk (writeCsvChars
        ((fieldnames :: data.map recordToRow).map fun row => row.map String.data))),
     ["Results written to " ++ output_file])

/-! ### Round-trip lemmas: the reader inverts the writer. -/

theorem needsQuote_cons (c : Char) (s : List Char) :
    needsQuote (c :: s) = ((c = ',' || c = '"' || c = '\r' || c = '\n') || needsQuote s) := by
  simp [needsQuote]

theorem csvGo_unquoted_comma (cur : List Char) (row : List (List Char))
    (acc : List (List (List Char))) (rest : List Char) :
    csvGo (.unquoted cur row) acc (',' :: rest) =
      csvGo (.fieldStart (cur.reverse :: row)) acc rest := by
  simp [csvGo]

theorem csvGo_unquoted_crlf (cur : List Char) (row : List (List Char))
    (acc : List (List (List Char))) (rest : List Char) :
    csvGo (.unquoted cur row) acc ('\r' :: '\n' :: rest) =
      csvGo (.fieldStart []) (rowDone cur row :: acc) rest := by
  simp [csvGo]

theorem csvGo_unquoted_other (c : Char) (h1 : c ≠ ',') (h3 : c ≠ '\r')
    (h4 : c ≠ '\n') (cur : List Char) (row : List (List Char))
    (acc : List (List (List Char))) (rest : List Char) :
    csvGo (.unquoted cur row) acc (c :: rest) =
      csvGo (.unquoted (c :: cur) row) acc rest := by
  simp [csvGo, h1, h3, h4]

theorem csvGo_quoted_qq (cur : List Char) (row : List (List Char))
    (acc : List (List (List Char))) (rest : List Char) :
    csvGo (.quoted cur row) acc ('"' :: '"' :: rest) =
      csvGo (.quoted ('"' :: cur) row) acc rest := by
  simp [csvGo]

theorem csvGo_quoted_other (c : Char) (hc : c ≠ '"') (cur : List Char)
    (row : List (List Char)) (acc : List (List (List Char))) (rest : List Char) :
    csvGo (.quoted cur row) acc (c :: rest) =
      csvGo (.quoted (c :: cur) row) acc rest := by
  simp [csvGo, hc]

theorem csvGo_quoted_close (cur : List Char) (row : List (List Char))
    (acc : List (List (List Char))) (rest : List Char) :
    csvGo (.quoted cur row) acc ('"' :: rest) =
      csvGo (.afterQuote cur.reverse row) acc rest := by
  simp [csvGo]

/-- At a field separator or row terminator, the after-quote state behaves
like the unquoted state carrying the same field. -/
theorem csvGo_afterQuote_eq (f : List Char) (row : List (List Char))
    (acc : List (List (List Char))) (rest : List Char)
    (h : rest.head? = some ',' ∨ rest.head? = some '\r') :
    csvGo (.afterQuote f row) acc rest = csvGo (.unquoted f.reverse row) acc rest := by
  rcases h with h | h <;>
  · cases rest with
    | nil => simp at h
    | cons c rs =>
        simp only [List.head?_cons, Option.some.injEq] at h
        subst h
        simp [csvGo]

/-- When the first character does not open a quoted field, the start-of-field
state behaves like the unquoted state with an empty current field. -/
theorem csvGo_fieldStart_eq (row : List (List Char))
    (acc : List (List (List Char))) (c : Char) (rest : List Char)
    (hc : c ≠ '"') :
    csvGo (.fieldStart row) acc (c :: rest) =
      csvGo (.unquoted [] row) acc (c :: rest) := by
  by_cases h1 : c = ','
  · subst h1; simp [csvGo, rowDone]
  · by_cases h3 : c = '\r'
    · subst h3; simp [csvGo, rowDone]
    · by_cases h4 : c = '\n'
      · subst h4; simp [csvGo, rowDone]
      · simp [csvGo, hc, h1, h3, h4]

/-- Characters of an unquoted field pass through the reader untouched. -/
theorem csvGo_unquoted_append (s : List Char) (hs : needsQuote s = false)
    (cur : List Char) (row : List (List Char)) (acc : List (List (List Char)))
    (rest : List Char) :
    csvGo (.unquoted cur row) acc (s ++ rest) =
      csvGo (.unquoted (s.reverse ++ cur) row) acc rest := by
  induction s generalizing cur with
  | nil => simp
  | cons c s ih =>
      rw [needsQuote_cons] at hs
      simp only [Bool.or_eq_false_iff, decide_eq_false_iff_not] at hs
      obtain ⟨⟨⟨⟨h1, h2⟩, h3⟩, h4⟩, h5⟩ := hs
      rw [List.cons_append, csvGo_unquoted_other c h1 h3 h4, ih h5]
      simp

/-- Escaped characters of a quoted field pass through the reader untouched. -/
theorem csvGo_quoted_append (s : List Char) (cur : List Char)
    (row : List (List Char)) (acc : List (List (List Char))) (rest : List Char) :
    csvGo (.quoted cur row) acc (escapeQuotes s ++ rest) =
      csvGo (.quoted (s.reverse ++ cur) row) acc rest := by
  induction s generalizing cur with
  | nil => simp [escapeQuotes]
  | cons c s ih =>
      by_cases hc : c = '"'
      · subst hc
        show csvGo (.quoted cur row) acc ('"' :: '"' :: (escapeQuotes s ++ rest)) = _
        rw [csvGo_quoted_qq, ih]
        simp
      · show csvGo (.quoted cur row) acc (escapeQuotes (c :: s) ++ rest) = _
        rw [escapeQuotes, if_neg hc, List.cons_append, csvGo_quoted_other c hc, ih]
        simp

/-- Reading one written field from the start-of-field state ends in the
unquoted state holding exactly that field, for any terminator that follows. -/
theorem csvGo_fieldStart_quoteField (f : List Char) (row : List (List Char))
    (acc : List (List (List Char))) (rest : List Char)
    (h : rest.head? = some ',' ∨ rest.head? = some '\r') :
    csvGo (.fieldStart row) acc (quoteField f ++ rest) =
      csvGo (.unquoted f.reverse row) acc rest := by
  by_cases hq : needsQuote f
  · rw [quoteField, if_pos hq]
    show csvGo (.fieldStart row) acc ('"' :: ((escapeQuotes f ++ ['"']) ++ rest)) = _
    have hstep : csvGo (.fieldStart row) acc ('"' :: ((escapeQuotes f ++ ['"']) ++ rest)) =
        csvGo (.quoted [] row) acc ((escapeQuotes f ++ ['"']) ++ rest) := by
      simp [csvGo]
    rw [hstep, List.append_assoc, List.singleton_append, csvGo_quoted_append,
      List.append_nil, csvGo_quoted_close, List.reverse_reverse,
      csvGo_afterQuote_eq f row acc rest h]
  · have hq2 : needsQuote f = false := by simpa using hq
    rw [quoteField, if_neg hq]
    cases f with
    | nil =>
        rcases h with h | h <;>
        · cases rest with
          | nil => simp at h
          | cons c rs =>
              simp only [List.head?_cons, Option.some.injEq] at h
              subst h
              simpa using csvGo_fieldStart_eq row acc _ rs (by decide)
    | cons c f =>
        rw [needsQuote_cons] at hq2
        simp only [Bool.or_eq_false_iff, decide_eq_false_iff_not] at hq2
        obtain ⟨⟨⟨⟨h1, h2⟩, h3⟩, h4⟩, h5⟩ := hq2
        rw [List.cons_append, csvGo_fieldStart_eq row acc c _ h2,
          csvGo_unquoted_other c h1 h3 h4, csvGo_unquoted_append f h5]
        simp

/-- Reading one written row appends exactly that row. -/
theorem csvGo_row (fs : List (List Char)) (f : List Char)
    (row : List (List Char)) (acc : List (List (List Char))) (rest : List Char) :
    csvGo (.fieldStart row) acc (joinFields (f :: fs) ++ '\r' :: '\n' :: rest) =
      csvGo (.fieldStart []) ((row.reverse ++ f :: fs) :: acc) rest := by
  induction fs generalizing f row with
  | nil =>
      show csvGo (.fieldStart row) acc (quoteField f ++ '\r' :: '\n' :: rest) = _
      rw [csvGo_fieldStart_quoteField f row acc ('\r' :: '\n' :: rest) (Or.inr rfl),
        csvGo_unquoted_crlf]
      simp [rowDone]
  | cons f2 fs ih =>
      show csvGo (.fieldStart row) acc
        ((quoteField f ++ ',' :: joinFields (f2 :: fs)) ++ '\r' :: '\n' :: rest) = _
      rw [List.append_assoc, List.cons_append,
        csvGo_fieldStart_quoteField f row acc
          (',' :: (joinFields (f2 :: fs) ++ '\r' :: '\n' :: rest)) (Or.inl rfl),
        csvGo_unquoted_comma, List.reverse_reverse, ih]
      simp

/-- Reading the written text of any list of nonempty rows returns exactly
those rows. -/
theorem csvGo_writeCsvChars (rows : List (List (List Char)))
    (hrows : ∀ row ∈ rows, row ≠ []) (acc : List (List (List Char))) :
    csvGo (.fieldStart []) acc (writeCsvChars rows) = acc.reverse ++ rows := by
  induction rows generalizing acc with
  | nil => simp [writeCsvChars, csvGo]
  | cons r rows ih =>
      have hr : r ≠ [] := hrows r (List.mem_cons_self r rows)
      cases r with
      | nil => exact absurd rfl hr
      | cons f fs =>
          have hw : writeCsvChars ((f :: fs) :: rows) =
              joinFields (f :: fs) ++ '\r' :: '\n' :: writeCsvChars rows := by
            simp [writeCsvChars, writeRowChars, List.append_assoc]
          rw [hw, csvGo_row,
            ih (fun row hrow => hrows row (List.mem_cons_of_mem _ hrow))]
          simp

theorem string_mk_data (s : String) : String.mk s.data = s := rfl

/-- Writer/reader round trip at the level of whole CSV files: re-parsing the
written text of `write_to_csv` recovers the header row and one row per record
with identical field values. -/
theorem parseCsvString_write_to_csv (output_file : String) (data : List RepoRecord)
    (out : String) (msgs : List String)
    (h : write_to_csv output_file data = (some out, msgs)) :
    parseCsvString out = fieldnames :: data.map recordToRow := by
  by_cases hd : data = []
  · rw [write_to_csv, if_pos hd] at h
    simp at h
  · rw [write_to_csv, if_neg hd] at h
    have hout : String.mk (writeCsvChars
        ((fieldnames :: data.map recordToRow).map fun row => row.map String.data)) = out := by
      have h2 := congrArg Prod.fst h
      simpa using h2
    subst hout
    have hne : ∀ row ∈ (fieldnames :: data.map recordToRow).map
        (fun row => row.map String.data), row ≠ [] := by
      intro row hrow
      simp only [List.mem_map, List.mem_cons] at hrow
      obtain ⟨orig, horig, rfl⟩ := hrow
      rcases horig with rfl | horig
      · simp [fieldnames]
      · obtain ⟨r, hmem, rfl⟩ := horig
        simp [recordToRow]
    rw [parseCsvString]
    show (csvGo (.fieldStart []) [] (writeCsvChars _)).map _ = _
    rw [csvGo_writeCsvChars _ hne []]
    simp [List.map_map, Function.comp_def, string_mk_data]

/-! ### Spec-side definitions, phrased from the specification's words, to be
compared with the embedded source functions. -/

/-- The spec's "text up to (and including) the first period character" of a
string: the characters strictly before the first `'.'`, followed by the
period itself.  This phrase presupposes that the content contains a period. -/
def upToFirstPeriod (s : String) : String :=
  String.mk (s.data.takeWhile fun c => c != '.') ++ "."

/-- For nonempty content, the source's first-sentence extraction agrees with
the spec's "text up to and including the first period". -/
theorem firstSentenceOf_eq_upToFirstPeriod (content : String) (h : content ≠ "") :
    firstSentenceOf content = upToFirstPeriod content := by
  rw [firstSentenceOf, if_neg h, upToFirstPeriod, pySplit_headD]

/-! ### Sample providers and records used by witnesses and counterexamples. -/

/-- A fully healthy provider response. -/
def okProvider : RepoProvider :=
  { repoStatus := 200,
    message := none,
    stargazers_count := some 5,
    watchers_count := some 5,
    forks_count := some 2,
    commitsJson := .commitList ["2024-01-02T03:04:05Z"],
    readmeStatus := 200,
    download_url := some "https://raw.example/readme",
    rawStatus := 200,
    rawText := "Widget is a tool. It does things." }

def okApi : Api := fun _ _ => okProvider

/-- A provider whose metadata endpoint fails. -/
def badProvider : RepoProvider :=
  { okProvider with repoStatus := 404, message := some "Not Found" }

def badApi : Api := fun _ _ => badProvider

/-- A provider whose README-reference response lacks the `download_url` key. -/
def noDownloadUrlProvider : RepoProvider :=
  { okProvider with download_url := none }

def noDownloadUrlApi : Api := fun _ _ => noDownloadUrlProvider

/-- A provider whose commit-list endpoint fails with an error object. -/
def commitsFailProvider : RepoProvider :=
  { okProvider with commitsJson := .errorObj "Not Found" }

def commitsFailApi : Api := fun _ _ => commitsFailProvider

/-- A provider whose README-reference request is non-success. -/
def readmeFailProvider : RepoProvider :=
  { okProvider with readmeStatus := 404 }

/-- A provider whose raw-content fetch is non-success; its error body is
still plain text. -/
def rawFailProvider : RepoProvider :=
  { okProvider with rawStatus := 404, rawText := "Not Found" }

/-- A provider whose commit list is empty. -/
def emptyCommitsProvider : RepoProvider :=
  { okProvider with commitsJson := .commitList [] }

/-- A provider whose README raw content is the empty string. -/
def emptyReadmeProvider : RepoProvider :=
  { okProvider with rawText := "" }

/-- The record `get_repo_info` assembles from `okProvider` for a given
owner and repo. -/
def okRecord (owner repo : String) : RepoRecord :=
  { url := "https://github.com/" ++ owner ++ "/" ++ repo,
    owner := owner,
    repo := repo,
    first_sentence_of_readme := "Widget is a tool.",
    last_commit_date := "2024-01-02T03:04:05Z",
    stars := .int 5,
    watchers := .int 5,
    forks := .int 2 }

/-- A record whose README sentence contains the delimiter, the quote
character and a line break, exercising CSV quoting. -/
def sampleRecord : RepoRecord :=
  { url := "https://github.com/acme/widget",
    owner := "acme",
    repo := "widget",
    first_sentence_of_readme := "Widget, a \"tool\"\nof sorts.",
    last_commit_date := "2024-01-02T03:04:05Z",
    stars := .int 5,
    watchers := .na,
    forks := .int 0 }

/-! ### Helper lemmas about the fetcher and the batch driver. -/

/-- A non-success metadata response makes `get_repo_info` fail with the
provider's message and produce no record. -/
theorem get_repo_info_fail (p : RepoProvider) (owner repo : String)
    (h : p.repoStatus ≠ 200) :
    get_repo_info p owner repo =
      (none, ["Error fetching repository " ++ owner ++ "/" ++ repo ++ ": " ++
        pyStr p.message]) := by
  rw [get_repo_info, if_pos h]

/-- With a success status, a readable commit list and a readable README
outcome, `get_repo_info` assembles the record. -/
theorem get_repo_info_some (p : RepoProvider) (owner repo : String)
    (h : p.repoStatus = 200) (lastDate fs : String)
    (hc : lastCommitDateOf p.commitsJson = some lastDate)
    (hr : readmeFirstSentence p = some fs) :
    get_repo_info p owner repo =
      (some { url := "https://github.com/" ++ owner ++ "/" ++ repo,
              owner := owner,
              repo := repo,
              first_sentence_of_readme := fs,
              last_commit_date := lastDate,
              stars := getOrNA p.stargazers_count,
              watchers := getOrNA p.watchers_count,
              forks := getOrNA p.forks_count }, []) := by
  simp [get_repo_info, h, hc, hr]

/-- An exception in the commit-list or README step reaches the catch-all
handler: no record, one diagnostic. -/
theorem get_repo_info_exception (p : RepoProvider) (owner repo : String)
    (h : p.repoStatus = 200)
    (hx : lastCommitDateOf p.commitsJson = none ∨ readmeFirstSentence p = none) :
    get_repo_info p owner repo =
      (none, ["Error fetching information for " ++ owner ++ "/" ++ repo ++ ": exception"]) := by
  rcases hx with hx | hx
  · simp [get_repo_info, h, hx]
  · cases hc : lastCommitDateOf p.commitsJson <;> simp [get_repo_info, h, hx, hc]

/-- Every record `get_repo_info` returns carries the owner and repo it was
asked about and the canonical URL rebuilt from them. -/
theorem get_repo_info_url (p : RepoProvider) (owner repo : String)
    (rec : RepoRecord) (h : (get_repo_info p owner repo).1 = some rec) :
    rec.owner = owner ∧ rec.repo = repo ∧
      rec.url = "https://github.com/" ++ rec.owner ++ "/" ++ rec.repo := by
  by_cases hs : p.repoStatus = 200
  · cases hc : lastCommitDateOf p.commitsJson with
    | none =>
        rw [get_repo_info_exception p owner repo hs (Or.inl hc)] at h
        simp at h
    | some d =>
        cases hr : readmeFirstSentence p with
        | none =>
            rw [get_repo_info_exception p owner repo hs (Or.inr hr)] at h
            simp at h
        | some fs =>
            rw [get_repo_info_some p owner repo hs d fs hc hr] at h
            simp only [Option.some.injEq] at h
            subst h
            exact ⟨rfl, rfl, rfl⟩
  · rw [get_repo_info_fail p owner repo hs] at h
    simp at h

/-- Blank lines are skipped silently by the batch driver. -/
theorem process_multiple_urls_blank (api : Api) (l : String) (ls : List String)
    (h : pyStrip l = "") :
    process_multiple_urls api (l :: ls) = process_multiple_urls api ls := by
  simp only [process_multiple_urls]
  rw [if_pos h]

/-- A failing non-blank line contributes its diagnostics and no record, and
processing continues with the remaining lines. -/
theorem process_multiple_urls_fail (api : Api) (l : String) (ls : List String)
    (h : pyStrip l ≠ "") (hf : (process_single_url api (pyStrip l)).1 = none) :
    process_multiple_urls api (l :: ls) =
      ((process_multiple_urls api ls).1,
       (process_single_url api (pyStrip l)).2 ++ (process_multiple_urls api ls).2) := by
  simp only [process_multiple_urls]
  rw [if_neg h, hf]

/-- A successful non-blank line prepends its record, preserving input order. -/
theorem process_multiple_urls_ok (api : Api) (l : String) (ls : List String)
    (r : RepoRecord) (h : pyStrip l ≠ "")
    (hf : (process_single_url api (pyStrip l)).1 = some r) :
    process_multiple_urls api (l :: ls) =
      (r :: (process_multiple_urls api ls).1,
       (process_single_url api (pyStrip l)).2 ++ (process_multiple_urls api ls).2) := by
  simp only [process_multiple_urls]
  rw [if_neg h, hf]

/-! ## Claims -/

/-- C1: when the repository-metadata fetch returns a non-success status, the
whole fetch for that identifier fails, reporting the provider's message, and
no record is produced; in batch mode the records and diagnostics of the
remaining lines are unaffected, so processing continues with the next line. -/
theorem claim_c1_metadata_failure :
    (∀ (p : RepoProvider) (owner repo : String), p.repoStatus ≠ 200 →
      get_repo_info p owner repo =
        (none, ["Error fetching repository " ++ owner ++ "/" ++ repo ++ ": " ++
          pyStr p.message])) ∧
    (∀ (api : Api) (l : String) (ls : List String), pyStrip l ≠ "" →
      (process_single_url api (pyStrip l)).1 = none →
      (process_multiple_urls api (l :: ls)).1 = (process_multiple_urls api ls).1 ∧
      (process_multiple_urls api (l :: ls)).2 =
        (process_single_url api (pyStrip l)).2 ++ (process_multiple_urls api ls).2) := by
  refine ⟨get_repo_info_fail, ?_⟩
  intro api l ls h hf
  rw [process_multiple_urls_fail api l ls h hf]
  exact ⟨rfl, rfl⟩

theorem claim_c1_metadata_failure_witness :
    get_repo_info badProvider "acme" "widget" =
      (none, ["Error fetching repository acme/widget: Not Found"]) ∧
    (process_multiple_urls badApi ["https://example.com/acme/widget"]).1 =
      (process_multiple_urls badApi []).1 := by
  constructor
  · exact claim_c1_metadata_failure.1 badProvider "acme" "widget" (by decide)
  · exact (claim_c1_metadata_failure.2 badApi "https://example.com/acme/widget" []
      (by decide) (by decide)).1

/-- C2 counterexample: "a//" has only one non-empty slash-delimited segment,
yet the source does not fail with InvalidIdentifier: it parses the last two
(empty) segments and proceeds to produce a record with no diagnostic. -/
theorem claim_c2_counterexample :
    (process_single_url okApi "a//").1.isSome = true ∧
    (process_single_url okApi "a//").2 = [] := by decide

/-- C2 (amended): parsing fails with InvalidIdentifier exactly when the
trimmed string contains no "/" at all (fewer than two segments, where empty
segments count); with at least one "/" the last two segments are taken even
when empty, so strings like "a//" or "/x" are accepted. -/
theorem claim_c2_invalid_identifier :
    (∀ (api : Api) (url : String), '/' ∉ (pyStrip url).data →
      process_single_url api url =
        (none, ["Invalid GitHub URL '" ++ pyStrip url ++
          "': URL does not have enough parts."])) ∧
    (∀ (api : Api) (url : String), '/' ∈ (pyStrip url).data →
      ∃ owner repo, process_single_url api url =
        get_repo_info (api owner repo) owner repo) := by
  constructor
  · intro api url h
    have hcount : ((pyStrip url).data.count '/') = 0 := List.count_eq_zero.mpr h
    have hlen : (pySplit '/' (pyStrip url).data).length < 2 := by
      rw [pySplit_length, hcount]
      omega
    simp only [process_single_url]
    rw [if_pos hlen]
  · intro api url h
    have hcount : ((pyStrip url).data.count '/') ≠ 0 := by
      simpa [List.count_eq_zero] using h
    have hlen : ¬ (pySplit '/' (pyStrip url).data).length < 2 := by
      rw [pySplit_length]
      omega
    refine ⟨String.mk ((pySplit '/' (pyStrip url).data).getD
        ((pySplit '/' (pyStrip url).data).length - 2) []),
      String.mk ((pySplit '/' (pyStrip url).data).getD
        ((pySplit '/' (pyStrip url).data).length - 1) []), ?_⟩
    simp only [process_single_url]
    rw [if_neg hlen]

theorem claim_c2_invalid_identifier_witness :
    process_single_url okApi "no-slash-here" =
      (none, ["Invalid GitHub URL 'no-slash-here': URL does not have enough parts."]) ∧
    ∃ owner repo, process_single_url okApi "a//" =
      get_repo_info (okApi owner repo) owner repo := by
  constructor
  · exact claim_c2_invalid_identifier.1 okApi "no-slash-here" (by decide)
  · exact claim_c2_invalid_identifier.2 okApi "a//" (by decide)

/-- C6: with at least two slash-delimited segments after trimming, parsing
takes the last two segments, in order, as (owner, name); in particular
"https://example.com/acme/widget" parses to owner "acme", name "widget". -/
theorem claim_c6_parse_last_two :
    (∀ (api : Api) (url : String) (pre : List (List Char)) (o n : List Char),
      pySplit '/' (pyStrip url).data = pre ++ [o, n] →
      process_single_url api url =
        get_repo_info (api (String.mk o) (String.mk n)) (String.mk o) (String.mk n)) ∧
    (∀ api : Api, process_single_url api "https://example.com/acme/widget" =
      get_repo_info (api "acme" "widget") "acme" "widget") := by
  have g1 : ∀ (o n : List Char) (pre : List (List Char)),
      (pre ++ [o, n]).getD pre.length [] = o := by
    intro o n pre
    induction pre with
    | nil => rfl
    | cons a as ih => simpa using ih
  have g2 : ∀ (o n : List Char) (pre : List (List Char)),
      (pre ++ [o, n]).getD (pre.length + 1) [] = n := by
    intro o n pre
    induction pre with
    | nil => rfl
    | cons a as ih => simpa using ih
  constructor
  · intro api url pre o n h
    have hlen : (pySplit '/' (pyStrip url).data).length = pre.length + 2 := by
      rw [h]
      simp
    have hnlt : ¬ (pySplit '/' (pyStrip url).data).length < 2 := by omega
    simp only [process_single_url]
    rw [if_neg hnlt, h]
    have e1 : (pre ++ [o, n]).length - 2 = pre.length := by
      simp
    have e2 : (pre ++ [o, n]).length - 1 = pre.length + 1 := by
      simp
    rw [e1, e2, g1, g2]
  · intro api
    rfl

theorem claim_c6_parse_last_two_witness :
    process_single_url okApi "https://example.com/acme/widget" =
      get_repo_info (okApi "acme" "widget") "acme" "widget" :=
  claim_c6_parse_last_two.1 okApi "https://example.com/acme/widget"
    ["https:".data, [], "example.com".data] "acme".data "widget".data (by decide)

/-- C9: with an output destination configured and no collected records, the
sink reports "no data to write" and produces no output file. -/
theorem claim_c9_no_data (output_file : String) :
    write_to_csv output_file [] = (none, ["No data to write."]) := by
  rw [write_to_csv, if_pos rfl]

/-- C10: every produced record's url field is the canonical string
"https://github.com/" ++ owner ++ "/" ++ repo rebuilt from the two parsed
segments stored in the record itself; the original input string is never
stored. -/
theorem claim_c10_canonical_url :
    (∀ (p : RepoProvider) (owner repo : String) (rec : RepoRecord),
      (get_repo_info p owner repo).1 = some rec →
      rec.owner = owner ∧ rec.repo = repo ∧
        rec.url = "https://github.com/" ++ rec.owner ++ "/" ++ rec.repo) ∧
    (∀ (api : Api) (url : String) (rec : RepoRecord),
      (process_single_url api url).1 = some rec →
      rec.url = "https://github.com/" ++ rec.owner ++ "/" ++ rec.repo) := by
  refine ⟨get_repo_info_url, ?_⟩
  intro api url rec h
  by_cases hlen : (pySplit '/' (pyStrip url).data).length < 2
  · simp only [process_single_url] at h
    rw [if_pos hlen] at h
    simp at h
  · simp only [process_single_url] at h
    rw [if_neg hlen] at h
    exact (get_repo_info_url _ _ _ rec h).2.2

theorem claim_c10_canonical_url_witness :
    (okRecord "acme" "widget").url =
      "https://github.com/" ++ (okRecord "acme" "widget").owner ++ "/" ++
        (okRecord "acme" "widget").repo :=
  claim_c10_canonical_url.2 okApi "https://example.com/acme/widget"
    (okRecord "acme" "widget") (by decide)

/-- C3 counterexample: a provider whose metadata and README-reference
requests succeed but whose response lacks the raw-content reference
(`download_url`): the claim says a record is still produced with the
sentinel, but the source raises KeyError and produces no record at all. -/
theorem claim_c3_counterexample :
    ¬ ∃ rec, (get_repo_info noDownloadUrlProvider "acme" "widget").1 = some rec ∧
      rec.first_sentence_of_readme = "README not available" := by decide

/-- C3 (amended): after a successful metadata fetch with a readable commit
list, a non-success README-reference response yields a record carrying the
sentinel "README not available"; a success response whose raw-content
reference is missing aborts the whole fetch, producing no record; when the
reference is present, the raw-content body is used as the README content
with no check of the raw fetch's status. -/
theorem claim_c3_readme_fallback :
    ∀ (p : RepoProvider) (owner repo : String), p.repoStatus = 200 →
      ∀ dates, p.commitsJson = .commitList dates →
        ((p.readmeStatus ≠ 200 →
          ∃ rec, (get_repo_info p owner repo).1 = some rec ∧
            rec.first_sentence_of_readme = "README not available") ∧
         (p.readmeStatus = 200 → p.download_url = none →
          (get_repo_info p owner repo).1 = none) ∧
         (p.readmeStatus = 200 → ∀ u, p.download_url = some u →
          ∃ rec, (get_repo_info p owner repo).1 = some rec ∧
            rec.first_sentence_of_readme = firstSentenceOf p.rawText)) := by
  intro p owner repo hs dates hcj
  have hc : lastCommitDateOf p.commitsJson = some (dates.headD "No commits found") := by
    rw [hcj, lastCommitDateOf]
  refine ⟨?_, ?_, ?_⟩
  · intro hrs
    have hr : readmeFirstSentence p = some "README not available" := by
      rw [readmeFirstSentence, if_neg hrs]
    exact ⟨_, by rw [get_repo_info_some p owner repo hs _ _ hc hr], rfl⟩
  · intro hrs hdl
    have hr : readmeFirstSentence p = none := by
      simp [readmeFirstSentence, hrs, hdl]
    rw [get_repo_info_exception p owner repo hs (Or.inr hr)]
  · intro hrs u hdl
    have hr : readmeFirstSentence p = some (firstSentenceOf p.rawText) := by
      simp [readmeFirstSentence, hrs, hdl]
    exact ⟨_, by rw [get_repo_info_some p owner repo hs _ _ hc hr], rfl⟩

theorem claim_c3_readme_fallback_witness :
    (∃ rec, (get_repo_info readmeFailProvider "acme" "widget").1 = some rec ∧
      rec.first_sentence_of_readme = "README not available") ∧
    (get_repo_info noDownloadUrlProvider "o" "r").1 = none ∧
    (∃ rec, (get_repo_info rawFailProvider "acme" "widget").1 = some rec ∧
      rec.first_sentence_of_readme = firstSentenceOf rawFailProvider.rawText) := by
  refine ⟨?_, ?_, ?_⟩
  · exact (claim_c3_readme_fallback readmeFailProvider "acme" "widget" (by decide)
      ["2024-01-02T03:04:05Z"] (by decide)).1 (by decide)
  · exact (claim_c3_readme_fallback noDownloadUrlProvider "o" "r" (by decide)
      ["2024-01-02T03:04:05Z"] (by decide)).2.1 (by decide) (by decide)
  · exact (claim_c3_readme_fallback rawFailProvider "acme" "widget" (by decide)
      ["2024-01-02T03:04:05Z"] (by decide)).2.2 (by decide)
      "https://raw.example/readme" (by decide)

/-- C4 counterexample: a provider whose commit-list fetch fails (a
non-success error object): the claim says a record is still produced with
the sentinel, but indexing the error body raises, the catch-all handler
converts it into no record, and nothing is produced. -/
theorem claim_c4_counterexample :
    ¬ ∃ rec, (get_repo_info commitsFailProvider "acme" "widget").1 = some rec ∧
      rec.last_commit_date = "No commits found" := by decide

/-- C4 (amended): after a successful metadata fetch, an empty commit list
yields a record (provided the README step does not itself raise) whose
last_commit_date is the sentinel "No commits found"; a failing commit-list
fetch instead aborts the whole fetch, producing no record. -/
theorem claim_c4_commits_fallback :
    ∀ (p : RepoProvider) (owner repo : String), p.repoStatus = 200 →
      ((p.commitsJson = .commitList [] →
        (p.readmeStatus ≠ 200 ∨ (∃ u, p.download_url = some u)) →
        ∃ rec, (get_repo_info p owner repo).1 = some rec ∧
          rec.last_commit_date = "No commits found") ∧
       (∀ m, p.commitsJson = .errorObj m →
        (get_repo_info p owner repo).1 = none)) := by
  intro p owner repo hs
  constructor
  · intro hcj hre
    have hc : lastCommitDateOf p.commitsJson = some "No commits found" := by
      rw [hcj]
      rfl
    have hr : ∃ fs, readmeFirstSentence p = some fs := by
      by_cases hrs : p.readmeStatus = 200
      · rcases hre with hre | ⟨u, hu⟩
        · exact absurd hrs hre
        · exact ⟨firstSentenceOf p.rawText, by rw [readmeFirstSentence, if_pos hrs, hu]⟩
      · exact ⟨"README not available", by rw [readmeFirstSentence, if_neg hrs]⟩
    obtain ⟨fs, hr⟩ := hr
    exact ⟨_, by rw [get_repo_info_some p owner repo hs _ _ hc hr], rfl⟩
  · intro m hcj
    have hc : lastCommitDateOf p.commitsJson = none := by
      rw [hcj, lastCommitDateOf]
    rw [get_repo_info_exception p owner repo hs (Or.inl hc)]

theorem claim_c4_commits_fallback_witness :
    (∃ rec, (get_repo_info emptyCommitsProvider "acme" "widget").1 = some rec ∧
      rec.last_commit_date = "No commits found") ∧
    (get_repo_info commitsFailProvider "o" "r").1 = none := by
  constructor
  · exact (claim_c4_commits_fallback emptyCommitsProvider "acme" "widget" (by decide)).1
      (by decide) (Or.inr ⟨"https://raw.example/readme", by decide⟩)
  · exact (claim_c4_commits_fallback commitsFailProvider "o" "r" (by decide)).2
      "Not Found" (by decide)

/-- C5: for a successfully fetched README (metadata success, commit list
readable, README-reference success with the raw-content reference present),
the record is produced and: when the content contains a period, its
first_sentence_of_readme is the text up to and including the first period of
the content; when the content is the empty string, it is the sentinel
"README not available". -/
theorem claim_c5_first_sentence :
    ∀ (p : RepoProvider) (owner repo : String), p.repoStatus = 200 →
      ∀ dates, p.commitsJson = .commitList dates →
        p.readmeStatus = 200 → ∀ u, p.download_url = some u →
        ∃ rec, (get_repo_info p owner repo).1 = some rec ∧
          ('.' ∈ p.rawText.data →
            rec.first_sentence_of_readme = upToFirstPeriod p.rawText) ∧
          (p.rawText = "" →
            rec.first_sentence_of_readme = "README not available") := by
  intro p owner repo hs dates hcj hrs u hdl
  have hc : lastCommitDateOf p.commitsJson = some (dates.headD "No commits found") := by
    rw [hcj, lastCommitDateOf]
  have hr : readmeFirstSentence p = some (firstSentenceOf p.rawText) := by
    simp [readmeFirstSentence, hrs, hdl]
  refine ⟨_, by rw [get_repo_info_some p owner repo hs _ _ hc hr], ?_, ?_⟩
  · intro hdot
    have hne : p.rawText ≠ "" := by
      intro he
      rw [he] at hdot
      simp at hdot
    exact firstSentenceOf_eq_upToFirstPeriod p.rawText hne
  · intro he
    show firstSentenceOf p.rawText = "README not available"
    rw [firstSentenceOf, if_pos he]

theorem claim_c5_first_sentence_witness :
    (∃ rec, (get_repo_info okProvider "acme" "widget").1 = some rec ∧
      rec.first_sentence_of_readme = "Widget is a tool.") ∧
    (∃ rec, (get_repo_info emptyReadmeProvider "acme" "widget").1 = some rec ∧
      rec.first_sentence_of_readme = "README not available") := by
  constructor
  · obtain ⟨rec, h1, h2, h3⟩ := claim_c5_first_sentence okProvider "acme" "widget"
      (by decide) ["2024-01-02T03:04:05Z"] (by decide) (by decide)
      "https://raw.example/readme" (by decide)
    refine ⟨rec, h1, ?_⟩
    rw [h2 (by decide)]
    decide
  · obtain ⟨rec, h1, h2, h3⟩ := claim_c5_first_sentence emptyReadmeProvider "acme" "widget"
      (by decide) ["2024-01-02T03:04:05Z"] (by decide) (by decide)
      "https://raw.example/readme" (by decide)
    exact ⟨rec, h1, h3 (by decide)⟩

/-- C7 counterexample: for the 3-line batch with one blank line, one
malformed identifier and one healthy line, exactly one record is produced,
but only one diagnostic is reported, not two: the blank line is skipped
silently with no diagnostic. -/
theorem claim_c7_counterexample :
    (process_multiple_urls okApi ["", "not-a-url", "https://example.com/acme/widget"]).1.length = 1 ∧
    (process_multiple_urls okApi ["", "not-a-url", "https://example.com/acme/widget"]).2.length = 1 ∧
    ¬ (process_multiple_urls okApi ["", "not-a-url", "https://example.com/acme/widget"]).2.length = 2 := by
  decide

/-- C7 (amended): blank lines are skipped silently with no diagnostic; a
non-blank failing line is reported and skipped without affecting later
lines; a successful line prepends its record, preserving input order; for
the 3-line batch with one blank, one malformed and one healthy line, exactly
one record and exactly one diagnostic are produced. -/
theorem claim_c7_skip_and_continue :
    (∀ (api : Api) (l : String) (ls : List String), pyStrip l = "" →
      process_multiple_urls api (l :: ls) = process_multiple_urls api ls) ∧
    (∀ (api : Api) (l : String) (ls : List String), pyStrip l ≠ "" →
      (process_single_url api (pyStrip l)).1 = none →
      process_multiple_urls api (l :: ls) =
        ((process_multiple_urls api ls).1,
         (process_single_url api (pyStrip l)).2 ++ (process_multiple_urls api ls).2)) ∧
    (∀ (api : Api) (l : String) (ls : List String) (r : RepoRecord), pyStrip l ≠ "" →
      (process_single_url api (pyStrip l)).1 = some r →
      process_multiple_urls api (l :: ls) =
        (r :: (process_multiple_urls api ls).1,
         (process_single_url api (pyStrip l)).2 ++ (process_multiple_urls api ls).2)) ∧
    ((process_multiple_urls okApi ["", "not-a-url", "https://example.com/acme/widget"]).1.length = 1 ∧
     (process_multiple_urls okApi ["", "not-a-url", "https://example.com/acme/widget"]).2.length = 1) := by
  refine ⟨process_multiple_urls_blank, process_multiple_urls_fail,
    ?_, by decide⟩
  intro api l ls r h hf
  exact process_multiple_urls_ok api l ls r h hf

theorem claim_c7_skip_and_continue_witness :
    process_multiple_urls okApi ["   ", "a/b"] = process_multiple_urls okApi ["a/b"] ∧
    process_multiple_urls badApi ["a/b"] =
      ((process_multiple_urls badApi []).1,
       (process_single_url badApi (pyStrip "a/b")).2 ++ (process_multiple_urls badApi []).2) ∧
    process_multiple_urls okApi ["a/b"] =
      (okRecord "a" "b" :: (process_multiple_urls okApi []).1,
       (process_single_url okApi (pyStrip "a/b")).2 ++ (process_multiple_urls okApi []).2) :=
  ⟨claim_c7_skip_and_continue.1 okApi "   " ["a/b"] (by decide),
   claim_c7_skip_and_continue.2.1 badApi "a/b" [] (by decide) (by decide),
   claim_c7_skip_and_continue.2.2.1 okApi "a/b" [] (okRecord "a" "b") (by decide) (by decide)⟩

/-- C8: writing any non-empty list of records as delimited tabular output
(header row url, owner, repo, first_sentence_of_readme, last_commit_date,
stars, watchers, forks; fields quoted as needed) and re-parsing that output
yields the same records, with identical field values, in the same order. -/
theorem claim_c8_roundtrip (output_file : String) (data : List RepoRecord)
    (out : String) (msgs : List String)
    (h : write_to_csv output_file data = (some out, msgs)) :
    parseCsvString out = fieldnames :: data.map recordToRow :=
  parseCsvString_write_to_csv output_file data out msgs h

set_option maxRecDepth 8192 in
theorem claim_c8_roundtrip_witness :
    parseCsvString (((write_to_csv "out.csv" [sampleRecord]).1).getD "") =
      fieldnames :: [sampleRecord].map recordToRow :=
  claim_c8_roundtrip "out.csv" [sampleRecord]
    (((write_to_csv "out.csv" [sampleRecord]).1).getD "")
    ["Results written to out.csv"] (by decide)

end EnrichGithubUrl
